import Mathlib

/-!
Shallow embedding of the ytsummary transcript-acquisition pipeline.

The Go sources embedded here are:
* transcript source file (the innertube variant): extractVideoID, fetchTranscript, cleanSRT
* scraper.go: checkPlayability, selectCaptionTrack, parseTimedText, fetchTranscriptDirect
  (HTTP calls are abstracted into a World record of response functions)
* cache.go: getCachedTranscript, cacheTranscript (the sqlite table becomes an
  association list keyed by (video_id, language); fetched_at is not modelled)
* server.go: parseRequest, handleTranscript (JSON decoding and HTTP writing are
  abstracted away; the handler becomes a function from request and cache state to
  a response together with the new cache state)

Go standard-library functions used by that code (strings.Split, strings.TrimSpace,
strings.Contains, strings.HasPrefix, strings.ToLower, strings.Join, regexp matching
for the five URL patterns and the caption regexes, html.UnescapeString) are modelled
explicitly on lists of characters below.
-/

namespace YTSummary

/-! ## Go standard-library string models -/

/-- Model of Go's unicode.IsSpace for the characters relevant here: Latin-1 white
space ('\t', '\n', '\v', '\f', '\r', ' ', U+0085, U+00A0) plus the Unicode
space-separator code points. -/
def goIsSpace (c : Char) : Bool :=
  c = ' ' || c = '\t' || c = '\n' || (c = Char.ofNat 11) || (c = Char.ofNat 12) ||
  c = '\r' || (c = Char.ofNat 0x85) || (c = Char.ofNat 0xA0) ||
  (c = Char.ofNat 0x1680) || (0x2000 ≤ c.toNat && c.toNat ≤ 0x200A) ||
  (c = Char.ofNat 0x2028) || (c = Char.ofNat 0x2029) || (c = Char.ofNat 0x202F) ||
  (c = Char.ofNat 0x205F) || (c = Char.ofNat 0x3000)

/-- Model of Go's strings.TrimSpace. -/
def goTrimSpace (s : String) : String :=
  String.mk (((s.data.dropWhile goIsSpace).reverse.dropWhile goIsSpace).reverse)

/-- Split a character list at every occurrence of the separator, like Go's
strings.Split with a one-character separator (never returns an empty list). -/
def splitOnChar (sep : Char) : List Char → List (List Char)
  | [] => [[]]
  | c :: rest =>
    if c = sep then [] :: splitOnChar sep rest
    else
      match splitOnChar sep rest with
      | [] => [[c]]
      | l :: ls => (c :: l) :: ls

/-- Model of Go's strings.Split(content, "\n"). -/
def goSplitLines (s : String) : List String :=
  (splitOnChar '\n' s.data).map String.mk

/-- Substring containment on character lists (Go's strings.Contains). -/
def containsSub (s sub : List Char) : Bool :=
  match s with
  | [] => sub.isPrefixOf ([] : List Char)
  | _ :: t => sub.isPrefixOf s || containsSub t sub

/-- Model of Go's strings.Contains. -/
def goContains (s sub : String) : Bool := containsSub s.data sub.data

/-- Model of Go's strings.HasPrefix(s, pre). -/
def goStartsWith (s pre : String) : Bool := pre.data.isPrefixOf s.data

/-- Model of Go's strings.ToLower, restricted to ASCII case mapping. -/
def goToLower (s : String) : String := String.mk (s.data.map Char.toLower)

/-- Split a character list at the first occurrence of `stop`: returns the
characters strictly before it and, with a length certificate, the characters
strictly after it; `none` when `stop` does not occur. -/
def splitAtChar (stop : Char) : (s : List Char) →
    Option (List Char × {rest : List Char // rest.length < s.length})
  | [] => none
  | c :: t =>
    if c = stop then some ([], ⟨t, by simp⟩)
    else
      match splitAtChar stop t with
      | some (a, ⟨b, hb⟩) => some (c :: a, ⟨b, by simp; omega⟩)
      | none => none

/-! ## Identifier resolver (extractVideoID)

The Go function tries five regular expressions in order and falls back to a
bare-identifier check.  Each pattern is an unanchored literal followed by a
captured group of exactly 11 characters from the class [a-zA-Z0-9_-]; Go's
regexp returns the leftmost match.  The optional mobile prefix (?:m\.)? of the
first pattern never changes the captured group (a match using the "m." prefix
yields the same capture as the match without it two positions later, and the
leftmost match always corresponds to the earliest literal occurrence), so the
embedding drops it. -/

/-- Character class [a-zA-Z0-9_-] of the video-identifier alphabet. -/
def isIDChar (c : Char) : Bool :=
  ('a' ≤ c && c ≤ 'z') || ('A' ≤ c && c ≤ 'Z') || ('0' ≤ c && c ≤ '9') ||
  c = '_' || c = '-'

/-- Attempt to match `lit` followed by exactly 11 identifier characters at the
start of `s`; on success return the 11 captured characters. -/
def captureAfter (lit : List Char) (s : List Char) : Option (List Char) :=
  if lit.isPrefixOf s then
    let cand := (s.drop lit.length).take 11
    if cand.length = 11 && cand.all isIDChar then some cand else none
  else none

/-- Leftmost match of `lit` + 11 identifier characters anywhere in `s`
(Go regexp FindStringSubmatch on an unanchored pattern). -/
def findPattern (lit : List Char) : List Char → Option (List Char)
  | [] => none
  | c :: rest =>
    match captureAfter lit (c :: rest) with
    | some cap => some cap
    | none => findPattern lit rest

/-- Leftmost match for an alternation of two literals (the embed|v pattern);
at each position the first alternative is tried first. -/
def findPattern2 (lit1 lit2 : List Char) : List Char → Option (List Char)
  | [] => none
  | c :: rest =>
    match captureAfter lit1 (c :: rest) with
    | some cap => some cap
    | none =>
      match captureAfter lit2 (c :: rest) with
      | some cap => some cap
      | none => findPattern2 lit1 lit2 rest

/-- Literal core of `(?:m\.)?youtube\.com/watch\?v=`. -/
def patWatch : List Char :=
  ['y','o','u','t','u','b','e','.','c','o','m','/','w','a','t','c','h','?','v','=']

/-- Literal core of `youtu\.be/`. -/
def patShort : List Char := ['y','o','u','t','u','.','b','e','/']

/-- Literal core of the embed alternative of `youtube\.com/(?:embed|v)/`. -/
def patEmbed : List Char :=
  ['y','o','u','t','u','b','e','.','c','o','m','/','e','m','b','e','d','/']

/-- Literal core of the v alternative of `youtube\.com/(?:embed|v)/`. -/
def patV : List Char := ['y','o','u','t','u','b','e','.','c','o','m','/','v','/']

/-- Literal core of `youtube\.com/shorts/`. -/
def patShorts : List Char :=
  ['y','o','u','t','u','b','e','.','c','o','m','/','s','h','o','r','t','s','/']

/-- Literal core of `youtube\.com/live/`. -/
def patLive : List Char :=
  ['y','o','u','t','u','b','e','.','c','o','m','/','l','i','v','e','/']

/-- Embedding of extractVideoID: try the five URL patterns in order, then the
bare-identifier check `^[a-zA-Z0-9_-]{11}$`, else fail carrying the input. -/
def extractVideoID (url : String) : Except String String :=
  match findPattern patWatch url.data with
  | some cap => .ok (String.mk cap)
  | none =>
  match findPattern patShort url.data with
  | some cap => .ok (String.mk cap)
  | none =>
  match findPattern2 patEmbed patV url.data with
  | some cap => .ok (String.mk cap)
  | none =>
  match findPattern patShorts url.data with
  | some cap => .ok (String.mk cap)
  | none =>
  match findPattern patLive url.data with
  | some cap => .ok (String.mk cap)
  | none =>
  if url.data.length = 11 && url.data.all isIDChar then .ok url
  else .error ("could not extract video ID from: " ++ url)

/-! ## Caption format normalizer: line-oriented path (cleanSRT) -/

/-- Character class `\d`. -/
def isDigitChar (c : Char) : Bool := '0' ≤ c && c ≤ '9'

/-- The cue-index test `^\d+$` on a (trimmed) line. -/
def numberLine (l : List Char) : Bool := !l.isEmpty && l.all isDigitChar

/-- The timing-line test `^\d{2}:\d{2}:\d{2}`. -/
def timestampLine (l : List Char) : Bool :=
  match l with
  | a :: b :: c :: d :: e :: f :: g :: h :: _ =>
    isDigitChar a && isDigitChar b && c = ':' && isDigitChar d && isDigitChar e &&
    f = ':' && isDigitChar g && isDigitChar h
  | _ => false

/-- The header test `^(WEBVTT|Kind:|Language:)`. -/
def headerLine (l : String) : Bool :=
  goStartsWith l "WEBVTT" || goStartsWith l "Kind:" || goStartsWith l "Language:"

/-- Worker for tag removal: `acc` is `some buf` (reversed buffer) while inside a
candidate tag opened by '<', `none` outside.  Mirrors Go's
tagRe.ReplaceAllString(line, "") for the pattern `<[^>]+>`: a '<' followed by at
least one non-'>' character up to the next '>' is deleted; a "<>" pair and an
unterminated '<' are kept verbatim (the regexp does not match them). -/
def stripTagsAux : List Char → Option (List Char) → List Char
  | [], none => []
  | [], some buf => '<' :: buf.reverse
  | c :: rest, none =>
    if c = '<' then stripTagsAux rest (some [])
    else c :: stripTagsAux rest none
  | c :: rest, some buf =>
    if c = '>' then
      if buf.isEmpty then '<' :: '>' :: stripTagsAux rest none
      else stripTagsAux rest none
    else stripTagsAux rest (some (c :: buf))

/-- Model of tagRe.ReplaceAllString(line, "") with tagRe = `<[^>]+>`. -/
def stripTags (l : List Char) : List Char := stripTagsAux l none

/-- The per-line loop of cleanSRT, carrying lastLine for duplicate suppression. -/
def cleanSRTLoop (lastLine : String) : List String → List String
  | [] => []
  | rawLine :: rest =>
    let line := goTrimSpace rawLine
    if line = "" || numberLine line.data || timestampLine line.data || headerLine line then
      cleanSRTLoop lastLine rest
    else
      let line2 := goTrimSpace (String.mk (stripTags line.data))
      if line2 = "" then cleanSRTLoop lastLine rest
      else if line2 ≠ lastLine then line2 :: cleanSRTLoop line2 rest
      else cleanSRTLoop lastLine rest

/-- Embedding of cleanSRT: split on newlines, trim, drop blank/cue-index/timing/
header lines, strip inline tags, suppress immediately repeated lines, join the
survivors with single spaces. -/
def cleanSRT (content : String) : String :=
  String.intercalate " " (cleanSRTLoop "" (goSplitLines content))

/-! ## Caption format normalizer: XML path (parseTimedText) -/

/-- Worker of the html.UnescapeString model: decode the XML-core named entity
references plus the numeric apostrophe reference, leave everything else
(including unknown or unterminated sequences) verbatim, as Go does.  Because no
entity name contains a ';', matching the fixed sequences directly coincides
with reading the name up to the next ';' and looking it up.  (The full HTML5
name table, further numeric references and Go's legacy semicolon-less forms are
outside the embedding.) -/
def unescapeChars : List Char → List Char
  | '&' :: 'a' :: 'm' :: 'p' :: ';' :: rest => '&' :: unescapeChars rest
  | '&' :: 'l' :: 't' :: ';' :: rest => '<' :: unescapeChars rest
  | '&' :: 'g' :: 't' :: ';' :: rest => '>' :: unescapeChars rest
  | '&' :: 'q' :: 'u' :: 'o' :: 't' :: ';' :: rest => '"' :: unescapeChars rest
  | '&' :: 'a' :: 'p' :: 'o' :: 's' :: ';' :: rest => '\'' :: unescapeChars rest
  | '&' :: '#' :: '3' :: '9' :: ';' :: rest => '\'' :: unescapeChars rest
  | c :: rest => c :: unescapeChars rest
  | [] => []

/-- Model of html.UnescapeString (restricted as documented on unescapeChars). -/
def unescapeString (s : String) : String := String.mk (unescapeChars s.data)

/-- Attempt a match of `'<'++openLit` + `[^>]*` + `'>'` + captured `[^<]*` +
`'<'++closeTail` starting exactly at the head of `s`.  The greedy classes are
deterministic: `[^>]*` necessarily ends at the first '>' and the capture at the
first following '<', which must begin the closing literal.  On success returns
the capture and the remainder after the match (with a length certificate). -/
def tagMatchAt (openLit closeTail : List Char) (s : List Char) :
    Option (List Char × {rest : List Char // rest.length < s.length}) :=
  if openLit.isPrefixOf s then
    match splitAtChar '>' (s.drop openLit.length) with
    | none => none
    | some (_, ⟨afterGt, hGt⟩) =>
      match splitAtChar '<' afterGt with
      | none => none
      | some (cap, ⟨afterLt, hLt⟩) =>
        if closeTail.isPrefixOf afterLt then
          some (cap, ⟨afterLt.drop closeTail.length, by
            have h1 : (afterLt.drop closeTail.length).length ≤ afterLt.length := by
              simp
            have h2 : (s.drop openLit.length).length ≤ s.length := by simp
            omega⟩)
        else none
  else none

/-- Scanner worker for the element regex: at each position emit the capture of
a match starting there and continue after the match, otherwise advance one
character (Go regexp FindAllStringSubmatch semantics).  `fuel` only bounds the
recursion depth: every step either advances one character or consumes a whole
match of at least one character (tagMatchAt certifies rest.length < length), so
with initial fuel s.length + 1 the zero-fuel case is unreachable
(findTagMatchesAux_fuel below makes this invariant precise). -/
def findTagMatchesAux (openLit closeTail : List Char) : Nat → List Char → List (List Char)
  | 0, _ => []
  | _ + 1, [] => []
  | fuel + 1, c :: t =>
    match tagMatchAt openLit closeTail (c :: t) with
    | some (cap, ⟨rest, _⟩) => cap :: findTagMatchesAux openLit closeTail fuel rest
    | none => findTagMatchesAux openLit closeTail fuel t

/-- All captures of the element regex over `s`, leftmost first, continuing after
each match. -/
def findTagMatches (openLit closeTail : List Char) (s : List Char) : List (List Char) :=
  findTagMatchesAux openLit closeTail (s.length + 1) s

/-- Literal opener of `<p[^>]*>([^<]*)</p>`. -/
def openP : List Char := ['<', 'p']

/-- Closing literal of that pattern after the capture's terminating '<'. -/
def closeTailP : List Char := ['/', 'p', '>']

/-- Literal opener of `<text[^>]*>([^<]*)</text>`. -/
def openText : List Char := ['<', 't', 'e', 'x', 't']

/-- Closing literal of that pattern after the capture's terminating '<'. -/
def closeTailText : List Char := ['/', 't', 'e', 'x', 't', '>']

/-- The match list of parseTimedText: all `<p>` captures, or, when there are
none, all `<text>` captures, in document order. -/
def extractCaptionTexts (xmlContent : String) : List String :=
  let pMatches := findTagMatches openP closeTailP xmlContent.data
  let ms := if pMatches.isEmpty then findTagMatches openText closeTailText xmlContent.data
            else pMatches
  ms.map String.mk

/-- The accumulation loop of parseTimedText: keep a decoded, trimmed text when
it is nonempty and differs from the last kept line. -/
def keepLoop (lastLine : String) : List String → List String
  | [] => []
  | t :: rest =>
    if t ≠ "" && t ≠ lastLine then t :: keepLoop t rest
    else keepLoop lastLine rest

/-- Embedding of parseTimedText: extract element texts, entity-decode and trim
each, drop empties and immediate repeats, join with single spaces. -/
def parseTimedText (xmlContent : String) : String :=
  String.intercalate " "
    (keepLoop "" ((extractCaptionTexts xmlContent).map
      (fun t => goTrimSpace (unescapeString t))))

/-- The format dispatch inlined in fetchTranscriptDirect (scraper.go lines
285-295): XML root markers select parseTimedText, otherwise a WEBVTT banner
selects cleanSRT, otherwise parseTimedText is tried anyway. -/
def normalizeCaptionContent (captionContent : String) : String :=
  if goContains captionContent "<timedtext" || goContains captionContent "<transcript" then
    parseTimedText captionContent
  else if goContains captionContent "WEBVTT" then
    cleanSRT captionContent
  else
    parseTimedText captionContent

/-! ## Scraper data model and pipeline -/

/-- CaptionTrack from scraper.go. -/
structure CaptionTrack where
  baseURL : String
  languageCode : String
  kind : String
deriving DecidableEq

/-- videoDetails of the player response. -/
structure VideoDetails where
  videoID : String
  title : String
deriving DecidableEq

/-- playabilityStatus of the player response; liveVideoID is the nested
liveStreamability.liveStreamabilityRenderer.videoId marker. -/
structure PlayabilityStatus where
  status : String
  reason : String
  liveVideoID : String
deriving DecidableEq

/-- YouTubePlayerResponse from scraper.go (captionTracks is the nested
captions.playerCaptionsTracklistRenderer.captionTracks list). -/
structure YouTubePlayerResponse where
  videoDetails : VideoDetails
  captionTracks : List CaptionTrack
  playabilityStatus : PlayabilityStatus
deriving DecidableEq

/-- FetchResult from scraper.go. -/
structure FetchResult where
  videoID : String
  title : String
  transcript : String
  language : String
deriving DecidableEq

/-- Embedding of checkPlayability: the status switch first, then the live-stream
marker check, errors as the Go error messages. -/
def checkPlayability (pr : YouTubePlayerResponse) : Option String :=
  let status := pr.playabilityStatus.status
  let reason := goToLower pr.playabilityStatus.reason
  if status = "UNPLAYABLE" then some "Private video or unavailable"
  else if status = "LOGIN_REQUIRED" then
    if goContains reason "age" then some "age-restricted video"
    else some "login required to view this video"
  else if status = "ERROR" then some ("video error: " ++ pr.playabilityStatus.reason)
  else if pr.playabilityStatus.liveVideoID ≠ "" then some "live streams are not supported"
  else none

/-- Embedding of selectCaptionTrack: empty-list failure, then first exact
language match, then first prefix match, then first base-subtag match, then the
first track. -/
def selectCaptionTrack : List CaptionTrack → String → Except String CaptionTrack
  | [], _ => .error "no subtitles available for this video"
  | t0 :: rest, lang =>
    let tracks := t0 :: rest
    match tracks.find? (fun t => t.languageCode = lang) with
    | some t => .ok t
    | none =>
    match tracks.find? (fun t =>
        goStartsWith t.languageCode (lang ++ "-") || goStartsWith t.languageCode lang) with
    | some t => .ok t
    | none =>
    let langAux := String.mk (lang.data.takeWhile (fun c => c ≠ '-'))
    match tracks.find? (fun t => t.languageCode = langAux) with
    | some t => .ok t
    | none => .ok t0

/-- The two outbound HTTP calls of the pipeline, abstracted: player is
fetchPlayerResponse (innertube metadata POST, already deserialized), caption is
the raw GET of fetchCaptions before its empty-body check.  Errors are the error
strings those calls would return. -/
structure World where
  player : String → Except String YouTubePlayerResponse
  caption : String → Except String String

/-- Embedding of fetchCaptions: the HTTP fetch followed by the zero-length body
check. -/
def fetchCaptions (w : World) (captionURL : String) : Except String String :=
  match w.caption captionURL with
  | .error e => .error e
  | .ok body => if body = "" then .error "empty caption response" else .ok body

/-- Embedding of fetchTranscriptDirect: resolve the identifier, fetch metadata,
check playability, require a nonempty track list, select a track, fetch its
content, normalize, fail on empty output, else build the FetchResult from the
metadata title/videoId and the selected track's language code. -/
def fetchTranscriptDirect (w : World) (url language : String) :
    Except String FetchResult :=
  match extractVideoID url with
  | .error e => .error ("invalid YouTube URL: " ++ e)
  | .ok videoID =>
  match w.player videoID with
  | .error e => .error e
  | .ok pr =>
  match checkPlayability pr with
  | some e => .error e
  | none =>
  match pr.captionTracks with
  | [] => .error "no subtitles available for this video"
  | _ :: _ =>
  match selectCaptionTrack pr.captionTracks language with
  | .error e => .error e
  | .ok track =>
  match fetchCaptions w track.baseURL with
  | .error e => .error e
  | .ok captionContent =>
  let transcript := normalizeCaptionContent captionContent
  if transcript = "" then .error "failed to parse caption content"
  else .ok { videoID := pr.videoDetails.videoID, title := pr.videoDetails.title,
             transcript := transcript, language := track.languageCode }

/-- Embedding of fetchTranscript (innertube variant): delegate to
fetchTranscriptDirect with the hardcoded language "en" and keep only the
transcript text. -/
def fetchTranscript (w : World) (url : String) : Except String String :=
  match fetchTranscriptDirect w url "en" with
  | .error e => .error e
  | .ok r => .ok r.transcript

/-! ## Cache store (cache.go) and HTTP handler (server.go) -/

/-- CacheEntry from cache.go (fetched_at not modelled). -/
structure CacheEntry where
  videoID : String
  language : String
  title : String
  transcript : String
deriving DecidableEq

/-- Embedding of getCachedTranscript: lookup by the composite key
(video_id, language). -/
def getCachedTranscript (cache : List CacheEntry) (videoID language : String) :
    Option CacheEntry :=
  cache.find? (fun e => e.videoID = videoID && e.language = language)

/-- Embedding of cacheTranscript: INSERT OR REPLACE keyed by
(video_id, language). -/
def cacheTranscript (cache : List CacheEntry) (videoID language title transcript : String) :
    List CacheEntry :=
  { videoID := videoID, language := language, title := title, transcript := transcript } ::
    cache.filter (fun e => !(e.videoID = videoID && e.language = language))

/-- TranscriptRequest from server.go; an empty language field stands for an
omitted JSON field. -/
structure TranscriptRequest where
  url : String
  language : String
deriving DecidableEq

/-- TranscriptResponse from server.go (duration_ms not modelled). -/
structure TranscriptResponse where
  videoID : String
  title : String
  transcript : String
  language : String
  cached : Bool
deriving DecidableEq

/-- Embedding of parseRequest after JSON decoding: require a url, resolve the
identifier, default the language to defaultLanguage = "en". -/
def parseRequest (req : TranscriptRequest) : Except String (String × String) :=
  if req.url = "" then .error "url is required"
  else
    match extractVideoID req.url with
    | .error e => .error ("invalid YouTube URL: " ++ e)
    | .ok videoID =>
      let lang := if req.language = "" then "en" else req.language
      .ok (videoID, lang)

/-- Embedding of handleTranscript: parse the request, look the key up in the
cache, on a hit answer from the cache, on a miss fetch and, only on success,
write the cache (with an empty title) and answer with the requested language.
Returns the response (or error) together with the resulting cache state. -/
def handleTranscript (w : World) (cache : List CacheEntry) (req : TranscriptRequest) :
    Except String TranscriptResponse × List CacheEntry :=
  match parseRequest req with
  | .error e => (.error e, cache)
  | .ok (videoID, lang) =>
    match getCachedTranscript cache videoID lang with
    | some entry =>
      (.ok { videoID := videoID, title := entry.title, transcript := entry.transcript,
             language := lang, cached := true }, cache)
    | none =>
      match fetchTranscript w req.url with
      | .error e => (.error e, cache)
      | .ok transcript =>
        (.ok { videoID := videoID, title := "", transcript := transcript,
               language := lang, cached := false },
         cacheTranscript cache videoID lang "" transcript)

/-! ## Specification-side definitions and concrete fixtures -/

/-- Adjacent-duplicate suppression relative to the previously kept line. -/
def dedupFrom (last : String) : List String → List String
  | [] => []
  | a :: rest => if a = last then dedupFrom last rest else a :: dedupFrom a rest

/-- Specification-side adjacent-duplicate suppression (following the spec's
words): two consecutive identical lines collapse to one, lines separated by a
distinct line are all kept.  Compared against the code's keepLoop. -/
def dedupAdjacent : List String → List String
  | [] => []
  | a :: rest => a :: dedupFrom a rest

/-- Concrete world for the claim-1 analysis: the innertube metadata call knows
one video with title "T" and a single English track, whose caption content is
the single line "hi". -/
def cxWorld : World where
  player := fun vid =>
    if vid = "dQw4w9WgXcQ" then
      .ok { videoDetails := { videoID := "dQw4w9WgXcQ", title := "T" },
            captionTracks := [{ baseURL := "u1", languageCode := "en", kind := "asr" }],
            playabilityStatus := { status := "OK", reason := "", liveVideoID := "" } }
    else .error "innertube API error: status 404"
  caption := fun u =>
    if u = "u1" then .ok "<timedtext><p t=\"0\" d=\"1\">hi</p></timedtext>"
    else .error "failed to fetch captions: status 404"

/-- Concrete request for the claim-1 analysis: requested language "fr" while
only an "en" track exists. -/
def cxRequest : TranscriptRequest :=
  { url := "https://www.youtube.com/watch?v=dQw4w9WgXcQ", language := "fr" }

/-- World whose HTTP calls always fail (claim-6 witness). -/
def errWorld : World where
  player := fun _ => .error "net down"
  caption := fun _ => .error "net down"

/-- A pre-populated cache for the claim-6 witness. -/
def errCache : List CacheEntry :=
  [{ videoID := "dQw4w9WgXcQ", language := "en", title := "T", transcript := "body" }]

/-- A request missing the cache key of errCache, forcing a fetch. -/
def errRequest : TranscriptRequest := { url := "https://youtu.be/AAAAAAAAAAA", language := "" }

/-- A line that the cleanSRT filters keep verbatim: already trimmed, nonempty,
not a cue index, not a timing line, not a header line, and free of '<' (so tag
removal is the identity). -/
def cleanLine (l : String) : Prop :=
  goTrimSpace l = l ∧ l ≠ "" ∧ numberLine l.data = false ∧ timestampLine l.data = false ∧
  headerLine l = false ∧ '<' ∉ l.data

instance (l : String) : Decidable (cleanLine l) := by
  unfold cleanLine; infer_instance

/-- No two adjacent entries of the list are equal. -/
def adjacentDistinct : List String → Bool
  | [] => true
  | [_] => true
  | a :: b :: rest => a ≠ b && adjacentDistinct (b :: rest)

/-! # Theorems -/

/-! ## Claim 2: caption-track selection policy -/

/-- C2: selectCaptionTrack applies exactly the first-match-wins order of the
claim: empty list fails with the no-captions error; else the first exact
language-code match; else the first track whose code starts with the preferred
language followed by "-" or has it as a literal prefix; else the first track
whose code equals the base subtag of the preferred language split on "-"; else
the first track in original order.  The three concrete examples of the claim
are included. -/
theorem claim2_track_selection :
    (∀ lang, selectCaptionTrack [] lang = .error "no subtitles available for this video") ∧
    (∀ tracks lang t, tracks ≠ [] →
      tracks.find? (fun tr => tr.languageCode = lang) = some t →
      selectCaptionTrack tracks lang = .ok t) ∧
    (∀ tracks lang t, tracks ≠ [] →
      tracks.find? (fun tr => tr.languageCode = lang) = none →
      tracks.find? (fun tr => goStartsWith tr.languageCode (lang ++ "-") ||
        goStartsWith tr.languageCode lang) = some t →
      selectCaptionTrack tracks lang = .ok t) ∧
    (∀ tracks lang t, tracks ≠ [] →
      tracks.find? (fun tr => tr.languageCode = lang) = none →
      tracks.find? (fun tr => goStartsWith tr.languageCode (lang ++ "-") ||
        goStartsWith tr.languageCode lang) = none →
      tracks.find? (fun tr =>
        tr.languageCode = String.mk (lang.data.takeWhile (fun c => c ≠ '-'))) = some t →
      selectCaptionTrack tracks lang = .ok t) ∧
    (∀ t0 rest lang,
      (t0 :: rest).find? (fun tr => tr.languageCode = lang) = none →
      (t0 :: rest).find? (fun tr => goStartsWith tr.languageCode (lang ++ "-") ||
        goStartsWith tr.languageCode lang) = none →
      (t0 :: rest).find? (fun tr =>
        tr.languageCode = String.mk (lang.data.takeWhile (fun c => c ≠ '-'))) = none →
      selectCaptionTrack (t0 :: rest) lang = .ok t0) ∧
    selectCaptionTrack [⟨"u1", "en-US", "asr"⟩, ⟨"u2", "en-GB", ""⟩, ⟨"u3", "es", ""⟩] "en"
      = .ok ⟨"u1", "en-US", "asr"⟩ ∧
    selectCaptionTrack [⟨"u1", "en", "asr"⟩] "en-US" = .ok ⟨"u1", "en", "asr"⟩ ∧
    selectCaptionTrack [⟨"u1", "ja", ""⟩, ⟨"u2", "ko", ""⟩] "en" = .ok ⟨"u1", "ja", ""⟩ := by
  refine ⟨fun lang => rfl, ?_, ?_, ?_, ?_, rfl, rfl, rfl⟩
  · intro tracks lang t hne hex
    cases tracks with
    | nil => exact absurd rfl hne
    | cons t0 rest => simp only [selectCaptionTrack]; rw [hex]
  · intro tracks lang t hne hex hpre
    cases tracks with
    | nil => exact absurd rfl hne
    | cons t0 rest => simp only [selectCaptionTrack]; rw [hex, hpre]
  · intro tracks lang t hne hex hpre hbase
    cases tracks with
    | nil => exact absurd rfl hne
    | cons t0 rest => simp only [selectCaptionTrack]; rw [hex, hpre, hbase]
  · intro t0 rest lang hex hpre hbase
    simp only [selectCaptionTrack]; rw [hex, hpre, hbase]

/-- C2 witness: the exact-match conjunct applied at a concrete track list. -/
theorem claim2_track_selection_witness :
    selectCaptionTrack [⟨"u1", "en", "asr"⟩, ⟨"u2", "es", ""⟩] "es" = .ok ⟨"u2", "es", ""⟩ :=
  claim2_track_selection.2.1 [⟨"u1", "en", "asr"⟩, ⟨"u2", "es", ""⟩] "es" ⟨"u2", "es", ""⟩
    (by decide) (by decide)

/-! ## Claim 3: availability classification -/

/-- C3 counterexample: metadata with status "UNPLAYABLE" carrying a non-empty
live-stream video-ID marker is classified as unplayable, not as a live stream,
so the live-marker check is not independent of status. -/
theorem claim3_availability_counterexample :
    checkPlayability ⟨⟨"vid", "T"⟩, [], ⟨"UNPLAYABLE", "", "live123"⟩⟩
      = some "Private video or unavailable" ∧
    ("live123" : String) ≠ "" ∧
    checkPlayability ⟨⟨"vid", "T"⟩, [], ⟨"UNPLAYABLE", "", "live123"⟩⟩
      ≠ some "live streams are not supported" := by
  exact ⟨rfl, by decide, by decide⟩

/-- C3 (amended): the status switch maps UNPLAYABLE, LOGIN_REQUIRED (split on a
case-insensitive "age" occurrence in the reason) and ERROR (reason verbatim)
first; the live-stream marker is consulted only for every other status (in
particular for OK), and with no marker the metadata is playable. -/
theorem claim3_availability_amended :
    (∀ pr : YouTubePlayerResponse, pr.playabilityStatus.status = "UNPLAYABLE" →
      checkPlayability pr = some "Private video or unavailable") ∧
    (∀ pr : YouTubePlayerResponse, pr.playabilityStatus.status = "LOGIN_REQUIRED" →
      goContains (goToLower pr.playabilityStatus.reason) "age" = true →
      checkPlayability pr = some "age-restricted video") ∧
    (∀ pr : YouTubePlayerResponse, pr.playabilityStatus.status = "LOGIN_REQUIRED" →
      goContains (goToLower pr.playabilityStatus.reason) "age" = false →
      checkPlayability pr = some "login required to view this video") ∧
    (∀ pr : YouTubePlayerResponse, pr.playabilityStatus.status = "ERROR" →
      checkPlayability pr = some ("video error: " ++ pr.playabilityStatus.reason)) ∧
    (∀ pr : YouTubePlayerResponse, pr.playabilityStatus.status ≠ "UNPLAYABLE" →
      pr.playabilityStatus.status ≠ "LOGIN_REQUIRED" →
      pr.playabilityStatus.status ≠ "ERROR" →
      pr.playabilityStatus.liveVideoID ≠ "" →
      checkPlayability pr = some "live streams are not supported") ∧
    (∀ pr : YouTubePlayerResponse, pr.playabilityStatus.status ≠ "UNPLAYABLE" →
      pr.playabilityStatus.status ≠ "LOGIN_REQUIRED" →
      pr.playabilityStatus.status ≠ "ERROR" →
      pr.playabilityStatus.liveVideoID = "" →
      checkPlayability pr = none) := by
  refine ⟨?_, ?_, ?_, ?_, ?_, ?_⟩
  · intro pr h; simp [checkPlayability, h]
  · intro pr h hage; simp [checkPlayability, h, hage]
  · intro pr h hage; simp [checkPlayability, h, hage]
  · intro pr h; simp [checkPlayability, h]
  · intro pr h1 h2 h3 hl; simp [checkPlayability, h1, h2, h3, hl]
  · intro pr h1 h2 h3 hl; simp [checkPlayability, h1, h2, h3, hl]

/-- C3 witness: the amended conjuncts applied at concrete metadata, including a
mixed-case age reason and a live marker with OK status. -/
theorem claim3_availability_amended_witness :
    checkPlayability ⟨⟨"x", "T"⟩, [], ⟨"LOGIN_REQUIRED", "confirm your AGE please", ""⟩⟩
      = some "age-restricted video" ∧
    checkPlayability ⟨⟨"x", "T"⟩, [], ⟨"OK", "", "live123"⟩⟩
      = some "live streams are not supported" ∧
    checkPlayability ⟨⟨"x", "T"⟩, [], ⟨"OK", "", ""⟩⟩ = none :=
  ⟨claim3_availability_amended.2.1 ⟨⟨"x", "T"⟩, [], ⟨"LOGIN_REQUIRED", "confirm your AGE please", ""⟩⟩
      rfl (by decide),
   claim3_availability_amended.2.2.2.2.1 ⟨⟨"x", "T"⟩, [], ⟨"OK", "", "live123"⟩⟩
      (by decide) (by decide) (by decide) (by decide),
   claim3_availability_amended.2.2.2.2.2 ⟨⟨"x", "T"⟩, [], ⟨"OK", "", ""⟩⟩
      (by decide) (by decide) (by decide) rfl⟩

/-! ## Claim 4: normalizer dispatch -/

/-- C4 counterexample: "just plain text" has no XML root marker, yet the
dispatch applies XML element extraction to it (yielding the empty string)
instead of the line-oriented treatment (which would keep the text). -/
theorem claim4_dispatch_counterexample :
    goContains "just plain text" "<timedtext" = false ∧
    goContains "just plain text" "<transcript" = false ∧
    normalizeCaptionContent "just plain text" = parseTimedText "just plain text" ∧
    parseTimedText "just plain text" = "" ∧
    cleanSRT "just plain text" = "just plain text" ∧
    normalizeCaptionContent "just plain text" ≠ cleanSRT "just plain text" := by
  exact ⟨by decide, by decide, rfl, rfl, rfl, by decide⟩

/-- C4 (amended): input lacking an XML root marker is treated as line-oriented
only when it contains the WEBVTT banner; marker-less input without that banner
is routed to the XML element extractor anyway. -/
theorem claim4_dispatch_amended :
    (∀ c : String, goContains c "<timedtext" = false → goContains c "<transcript" = false →
      goContains c "WEBVTT" = true → normalizeCaptionContent c = cleanSRT c) ∧
    (∀ c : String, goContains c "<timedtext" = false → goContains c "<transcript" = false →
      goContains c "WEBVTT" = false → normalizeCaptionContent c = parseTimedText c) := by
  constructor
  · intro c h1 h2 h3; simp [normalizeCaptionContent, h1, h2, h3]
  · intro c h1 h2 h3; simp [normalizeCaptionContent, h1, h2, h3]

/-- C4 witness: the amended dispatch applied to a WEBVTT input and to a plain
input. -/
theorem claim4_dispatch_amended_witness :
    normalizeCaptionContent "WEBVTT\nhello" = cleanSRT "WEBVTT\nhello" ∧
    normalizeCaptionContent "zzz" = parseTimedText "zzz" :=
  ⟨claim4_dispatch_amended.1 "WEBVTT\nhello" (by decide) (by decide) (by decide),
   claim4_dispatch_amended.2 "zzz" (by decide) (by decide) (by decide)⟩

/-! ## Claim 6: no cache write on any error path -/

/-- C6: whenever the transcript handler answers with an error - invalid input,
metadata-fetch failure, playability failure, missing or unselectable tracks,
caption-fetch failure, or empty normalization output - the cache state it
returns is exactly the cache state it was given: no error path writes the
cache. -/
theorem claim6_no_cache_write_on_error :
    ∀ (w : World) (cache : List CacheEntry) (req : TranscriptRequest) (e : String),
      (handleTranscript w cache req).1 = .error e →
      (handleTranscript w cache req).2 = cache := by
  intro w cache req e
  unfold handleTranscript
  cases hp : parseRequest req with
  | error e' => simp [hp]
  | ok p =>
    obtain ⟨videoID, lang⟩ := p
    cases hc : getCachedTranscript cache videoID lang with
    | some entry => simp [hp, hc]
    | none =>
      cases hf : fetchTranscript w req.url with
      | error e' => simp [hp, hc, hf]
      | ok tr => simp [hp, hc, hf]

/-- C6 witness: with a world whose metadata call fails, the handler leaves the
pre-populated cache untouched. -/
theorem claim6_no_cache_write_on_error_witness :
    (handleTranscript errWorld errCache errRequest).2 = errCache :=
  claim6_no_cache_write_on_error errWorld errCache errRequest "net down" rfl

/-! ## Claim 5: XML normalizer pipeline -/

/-- The code's keep-if-new loop equals filtering empties then deduplicating
relative to the last kept line. -/
theorem keepLoop_eq_dedupFrom (last : String) (xs : List String) :
    keepLoop last xs = dedupFrom last (xs.filter (fun t => t ≠ "")) := by
  induction xs generalizing last with
  | nil => rfl
  | cons t rest ih =>
    by_cases ht : t = ""
    · subst ht; simp [keepLoop, ih]
    · by_cases hl : t = last
      · subst hl; simp [keepLoop, dedupFrom, ht, ih]
      · simp [keepLoop, dedupFrom, ht, hl, ih]

/-- Starting from the empty last line, the code's loop is exactly
filter-then-adjacent-dedup. -/
theorem keepLoop_empty_eq_dedupAdjacent (xs : List String) :
    keepLoop "" xs = dedupAdjacent (xs.filter (fun t => t ≠ "")) := by
  rw [keepLoop_eq_dedupFrom]
  cases hf : xs.filter (fun t => t ≠ "") with
  | nil => rfl
  | cons a r =>
    have hmem : a ∈ xs.filter (fun t => t ≠ "") := by
      rw [hf]; exact List.mem_cons_self a r
    have ha : a ≠ "" := by simpa using List.of_mem_filter hmem
    simp [dedupFrom, dedupAdjacent, Ne.symm ha, ha]

/-- C5: the XML normalizer equals the spec pipeline - extract the element texts
in document order, entity-decode and trim each, drop the empties, suppress only
adjacent duplicates, and join with single spaces; two consecutive identical
lines collapse to one while two identical lines separated by a distinct line
are both kept. -/
theorem claim5_xml_normalizer :
    (∀ xml : String, parseTimedText xml = String.intercalate " "
      (dedupAdjacent (((extractCaptionTexts xml).map
        (fun t => goTrimSpace (unescapeString t))).filter (fun t => t ≠ "")))) ∧
    parseTimedText "<p>a</p><p>a</p>" = "a" ∧
    parseTimedText "<p>a</p><p>b</p><p>a</p>" = "a b a" := by
  refine ⟨?_, rfl, rfl⟩
  intro xml
  unfold parseTimedText
  rw [keepLoop_empty_eq_dedupAdjacent]

/-! ## Claim 9: nested markup is silently dropped by the XML extractor -/

/-- The part of a split before the separator never contains the separator. -/
theorem splitAtChar_fst_not_mem (stop : Char) :
    ∀ (s : List Char) (a : List Char) (b : {rest : List Char // rest.length < s.length}),
      splitAtChar stop s = some (a, b) → stop ∉ a := by
  intro s
  induction s with
  | nil => intro a b h; simp [splitAtChar] at h
  | cons c t ih =>
    intro a b h
    by_cases hc : c = stop
    · subst hc
      simp [splitAtChar] at h
      obtain ⟨rfl, -⟩ := h
      simp
    · revert h
      simp only [splitAtChar, hc, if_false]
      cases hs : splitAtChar stop t with
      | none => simp
      | some p =>
        obtain ⟨a', b'⟩ := p
        simp only [Option.some.injEq, Prod.mk.injEq]
        intro ha
        obtain ⟨rfl, -⟩ := ha
        intro hmem
        rcases List.mem_cons.mp hmem with h1 | h2
        · exact hc h1.symm
        · exact ih a' b' hs h2

/-- A capture returned by tagMatchAt contains no '<': it is cut off at the
first '<' after the opening tag, so an element whose inner content contains
another tag can never be captured. -/
theorem tagMatchAt_no_lt (openLit closeTail s cap : List Char)
    (rest : {r : List Char // r.length < s.length})
    (h : tagMatchAt openLit closeTail s = some (cap, rest)) : '<' ∉ cap := by
  unfold tagMatchAt at h
  split at h
  · split at h
    · exact absurd h (by simp)
    · split at h
      · exact absurd h (by simp)
      · rename_i p1 x1 afterGt hGtlen heq1 p2 capx afterLt hLtlen heq2
        split at h
        · have hcap : capx = cap := by
            have h2 := (Option.some.injEq _ _).mp h
            exact congrArg Prod.fst h2
          subst hcap
          exact splitAtChar_fst_not_mem '<' _ capx ⟨afterLt, hLtlen⟩ heq2
        · exact absurd h (by simp)
  · exact absurd h (by simp)

/-- No member of the scanner's output contains '<'. -/
theorem findTagMatchesAux_no_lt (openLit closeTail : List Char) :
    ∀ (fuel : Nat) (s cap : List Char),
      cap ∈ findTagMatchesAux openLit closeTail fuel s → '<' ∉ cap := by
  intro fuel
  induction fuel with
  | zero => intro s cap h; simp [findTagMatchesAux] at h
  | succ f ih =>
    intro s cap h
    cases s with
    | nil => simp [findTagMatchesAux] at h
    | cons c t =>
      unfold findTagMatchesAux at h
      split at h
      · rename_i capx rest hlen heq
        rcases List.mem_cons.mp h with rfl | h2
        · exact tagMatchAt_no_lt _ _ _ _ _ heq
        · exact ih rest cap h2
      · exact ih t cap h

/-- C9: every text the XML extractor emits is free of '<', so a <p> or <text>
element whose inner content itself contains another tag is never matched and
its text is silently omitted; on a concrete input in which every element has
nested markup, normalization yields the empty string. -/
theorem claim9_nested_markup :
    (∀ (xml t : String), t ∈ extractCaptionTexts xml → '<' ∉ t.data) ∧
    parseTimedText "<timedtext><p t=\"0\"><s>nested</s></p><p><s>x</s></p></timedtext>" = "" ∧
    normalizeCaptionContent "<timedtext><p t=\"0\"><s>nested</s></p><p><s>x</s></p></timedtext>" = "" := by
  refine ⟨?_, rfl, rfl⟩
  intro xml t ht
  unfold extractCaptionTexts at ht
  simp only [List.mem_map] at ht
  obtain ⟨cap, hcap, rfl⟩ := ht
  show '<' ∉ cap
  split at hcap
  · exact findTagMatchesAux_no_lt openText closeTailText _ _ _ hcap
  · exact findTagMatchesAux_no_lt openP closeTailP _ _ _ hcap

/-- C9 witness: the no-'<' property applied at a concrete extraction. -/
theorem claim9_nested_markup_witness : '<' ∉ ("abc" : String).data :=
  claim9_nested_markup.1 "<p>abc</p>" "abc" (by decide)

/-! ## Claim 8: normalizer idempotence on clean input -/

/-- Tag removal is the identity on lines without '<'. -/
theorem stripTagsAux_no_lt : ∀ l : List Char, '<' ∉ l → stripTagsAux l none = l := by
  intro l
  induction l with
  | nil => intro _; rfl
  | cons c t ih =>
    intro h
    have hc : c ≠ '<' := fun hh => h (hh ▸ List.mem_cons_self c t)
    have ht : '<' ∉ t := fun hh => h (List.mem_cons_of_mem c hh)
    simp [stripTagsAux, hc, ih ht]

/-- The cleanSRT loop keeps a list of clean, adjacent-distinct lines (whose
head also differs from the incoming last line) unchanged. -/
theorem cleanSRTLoop_clean :
    ∀ (lines : List String) (last : String),
      (∀ l ∈ lines, cleanLine l) →
      adjacentDistinct lines = true →
      (∀ l0, lines.head? = some l0 → l0 ≠ last) →
      cleanSRTLoop last lines = lines := by
  intro lines
  induction lines with
  | nil => intro last _ _ _; rfl
  | cons l rest ih =>
    intro last hclean hadj hhead
    obtain ⟨h1, h2, h3, h4, h5, h6⟩ := hclean l (List.mem_cons_self l rest)
    have hstrip : stripTags l.data = l.data := stripTagsAux_no_lt l.data h6
    have hlast : l ≠ last := hhead l rfl
    have hrest : cleanSRTLoop l rest = rest := by
      apply ih l (fun x hx => hclean x (List.mem_cons_of_mem l hx))
      · cases rest with
        | nil => rfl
        | cons r0 rr =>
          simpa [adjacentDistinct] using
            (by simpa [adjacentDistinct] using hadj :
              l ≠ r0 ∧ adjacentDistinct (r0 :: rr) = true).2
      · intro l0 h0
        cases rest with
        | nil => simp at h0
        | cons r0 rr =>
          simp at h0
          have : l ≠ r0 :=
            (by simpa [adjacentDistinct] using hadj :
              l ≠ r0 ∧ adjacentDistinct (r0 :: rr) = true).1
          exact h0 ▸ this.symm
    simp [cleanSRTLoop, h1, h2, h3, h4, h5, hstrip, hlast, hrest]

/-- C8 counterexample: "hello" is already-normalized plain text (it is the
Normalize output of a WEBVTT input) with no tags and no timestamps, yet
applying the normalizer again returns the empty string, not "hello": the
dispatch routes plain text without a WEBVTT banner to the XML extractor. -/
theorem claim8_idempotence_counterexample :
    normalizeCaptionContent "WEBVTT\nhello" = "hello" ∧
    normalizeCaptionContent "hello" = "" ∧
    ("" : String) ≠ "hello" :=
  ⟨rfl, rfl, by decide⟩

/-- C8 (amended): the line-oriented normalizer cleanSRT is idempotent on clean
input modulo whitespace collapsing - a string whose newline-split lines are
trimmed, nonempty, tag-free, not cue-index/timing/header lines, and pairwise
adjacent-distinct is returned as exactly those lines joined by single spaces. -/
theorem claim8_idempotence_amended :
    ∀ (content : String) (lines : List String),
      goSplitLines content = lines →
      (∀ l ∈ lines, cleanLine l) →
      adjacentDistinct lines = true →
      cleanSRT content = String.intercalate " " lines := by
  intro content lines hsplit hclean hadj
  unfold cleanSRT
  rw [hsplit, cleanSRTLoop_clean lines "" hclean hadj]
  intro l0 h0
  cases lines with
  | nil => simp at h0
  | cons a r =>
    simp at h0
    exact h0 ▸ (hclean a (List.mem_cons_self a r)).2.1

/-- C8 witness: the amended idempotence applied to a concrete two-line clean
input, collapsing the newline to a single space. -/
theorem claim8_idempotence_amended_witness :
    cleanSRT "hello world\nfoo" = String.intercalate " " ["hello world", "foo"] :=
  claim8_idempotence_amended "hello world\nfoo" ["hello world", "foo"] rfl
    (by decide) (by decide)

/-! ## Claim 1: cache write and returned transcript on a successful miss -/

/-- C1 counterexample: on a cache miss with requested language "fr" and a
single "en" track, the handler does write the cache keyed by the identifier
and the requested language, but the returned response carries an empty title
(not the metadata title "T") and the requested language "fr" (not the track's
actual "en") - those fields survive only in the inner fetch result, which the
handler discards. -/
theorem claim1_counterexample :
    (handleTranscript cxWorld [] cxRequest).1
      = .ok { videoID := "dQw4w9WgXcQ", title := "", transcript := "hi",
              language := "fr", cached := false } ∧
    (handleTranscript cxWorld [] cxRequest).2
      = [{ videoID := "dQw4w9WgXcQ", language := "fr", title := "", transcript := "hi" }] ∧
    fetchTranscriptDirect cxWorld cxRequest.url "fr"
      = .ok { videoID := "dQw4w9WgXcQ", title := "T", transcript := "hi", language := "en" } ∧
    ("" : String) ≠ "T" ∧ ("fr" : String) ≠ "en" :=
  ⟨rfl, rfl, rfl, by decide, by decide⟩

/-- C1 (amended): on a cache miss that fetches successfully the handler writes
the cache keyed by (identifier, requested language) - with an empty title -
and answers with the requested language code and an empty title; the track's
actual language code and the metadata title are carried only by the inner
fetch result of fetchTranscriptDirect and are discarded by the handler's
fetchTranscript wrapper (which moreover hardcodes the preference "en"). -/
theorem claim1_amended :
    (∀ (w : World) (cache : List CacheEntry) (req : TranscriptRequest)
        (videoID lang transcript : String),
      parseRequest req = .ok (videoID, lang) →
      getCachedTranscript cache videoID lang = none →
      fetchTranscript w req.url = .ok transcript →
      handleTranscript w cache req =
        (.ok { videoID := videoID, title := "", transcript := transcript,
               language := lang, cached := false },
         cacheTranscript cache videoID lang "" transcript)) ∧
    (∀ (w : World) (url lang : String) (r : FetchResult),
      fetchTranscriptDirect w url lang = .ok r →
      ∃ (vid : String) (pr : YouTubePlayerResponse) (track : CaptionTrack),
        extractVideoID url = .ok vid ∧ w.player vid = .ok pr ∧
        selectCaptionTrack pr.captionTracks lang = .ok track ∧
        r.title = pr.videoDetails.title ∧ r.language = track.languageCode) := by
  constructor
  · intro w cache req videoID lang transcript hp hc hf
    unfold handleTranscript
    simp [hp, hc, hf]
  · intro w url lang r h
    unfold fetchTranscriptDirect at h
    split at h
    · exact absurd h (by simp)
    · rename_i vid heqvid
      split at h
      · exact absurd h (by simp)
      · rename_i pr heqpr
        split at h
        · exact absurd h (by simp)
        · split at h
          · exact absurd h (by simp)
          · rename_i t0 ts heqtracks
            split at h
            · exact absurd h (by simp)
            · rename_i track heqtrack
              split at h
              · exact absurd h (by simp)
              · rename_i content heqcontent
                dsimp only at h
                split at h
                · exact absurd h (by simp)
                · refine ⟨vid, pr, track, heqvid, heqpr, heqtrack, ?_, ?_⟩
                  · have h2 := (Except.ok.injEq _ _).mp h
                    rw [← h2]
                  · have h2 := (Except.ok.injEq _ _).mp h
                    rw [← h2]

/-- C1 witness: the amended statement applied at the concrete world, request
and fetch result of the counterexample. -/
theorem claim1_amended_witness :
    handleTranscript cxWorld [] cxRequest =
      (.ok { videoID := "dQw4w9WgXcQ", title := "", transcript := "hi",
             language := "fr", cached := false },
       cacheTranscript [] "dQw4w9WgXcQ" "fr" "" "hi") ∧
    (∃ (vid : String) (pr : YouTubePlayerResponse) (track : CaptionTrack),
      extractVideoID cxRequest.url = .ok vid ∧ cxWorld.player vid = .ok pr ∧
      selectCaptionTrack pr.captionTracks "fr" = .ok track ∧
      (FetchResult.mk "dQw4w9WgXcQ" "T" "hi" "en").title = pr.videoDetails.title ∧
      (FetchResult.mk "dQw4w9WgXcQ" "T" "hi" "en").language = track.languageCode) :=
  ⟨claim1_amended.1 cxWorld [] cxRequest "dQw4w9WgXcQ" "fr" "hi" rfl rfl rfl,
   claim1_amended.2 cxWorld cxRequest.url "fr"
     (FetchResult.mk "dQw4w9WgXcQ" "T" "hi" "en") rfl⟩


/-! ## Claims 7 and 10: identifier resolver on URL shapes and bare tokens -/


/-- A list is a Boolean prefix of itself followed by anything. -/
theorem isPrefixOf_append_self (l r : List Char) : (l.isPrefixOf (l ++ r)) = true := by
  induction l with
  | nil => simp [List.isPrefixOf]
  | cons a as ih => simp [List.isPrefixOf, ih]

/-- At the position right after the literal, the capture is the next 11
characters when they are identifier characters. -/
theorem captureAfter_append (lit rest : List Char) (h11 : 11 ≤ rest.length)
    (hall : (rest.take 11).all isIDChar = true) :
    captureAfter lit (lit ++ rest) = some (rest.take 11) := by
  unfold captureAfter
  rw [isPrefixOf_append_self]
  simp only [if_true]
  rw [List.drop_left]
  have h3 : (rest.take 11).length = 11 := by
    rw [List.length_take]; omega
  simp [h3, hall]

/-- A pattern whose literal starts the string matches there. -/
theorem findPattern_self (lit rest : List Char) (hlit : lit ≠ [])
    (h11 : 11 ≤ rest.length) (hall : (rest.take 11).all isIDChar = true) :
    findPattern lit (lit ++ rest) = some (rest.take 11) := by
  cases lit with
  | nil => exact absurd rfl hlit
  | cons a as =>
    show findPattern (a :: as) ((a :: as) ++ rest) = some (rest.take 11)
    simp only [findPattern, List.append_eq]
    have hca := captureAfter_append (a :: as) rest h11 hall
    rw [List.cons_append] at hca
    rw [hca]

/-- The scan advances one character past a position with no match. -/
theorem findPattern_step (lit : List Char) (c : Char) (rest : List Char)
    (h : captureAfter lit (c :: rest) = none) :
    findPattern lit (c :: rest) = findPattern lit rest := by
  simp only [findPattern]
  rw [h]

/-- The alternation scan advances past a position where neither literal
matches. -/
theorem findPattern2_step (lit1 lit2 : List Char) (c : Char) (rest : List Char)
    (h1 : captureAfter lit1 (c :: rest) = none)
    (h2 : captureAfter lit2 (c :: rest) = none) :
    findPattern2 lit1 lit2 (c :: rest) = findPattern2 lit1 lit2 rest := by
  simp only [findPattern2]
  rw [h1, h2]

/-- The alternation matches at a position starting with the first literal. -/
theorem findPattern2_self_left (lit1 lit2 rest : List Char) (hlit : lit1 ≠ [])
    (h11 : 11 ≤ rest.length) (hall : (rest.take 11).all isIDChar = true) :
    findPattern2 lit1 lit2 (lit1 ++ rest) = some (rest.take 11) := by
  cases lit1 with
  | nil => exact absurd rfl hlit
  | cons a as =>
    show findPattern2 (a :: as) lit2 ((a :: as) ++ rest) = some (rest.take 11)
    simp only [findPattern2, List.append_eq]
    have hca := captureAfter_append (a :: as) rest h11 hall
    rw [List.cons_append] at hca
    rw [hca]

/-- The alternation matches at a position starting with the second literal when
the first fails there. -/
theorem findPattern2_self_right (lit1 lit2 rest : List Char) (hlit : lit2 ≠ [])
    (h1 : captureAfter lit1 (lit2 ++ rest) = none)
    (h11 : 11 ≤ rest.length) (hall : (rest.take 11).all isIDChar = true) :
    findPattern2 lit1 lit2 (lit2 ++ rest) = some (rest.take 11) := by
  cases hl : lit2 with
  | nil => exact absurd hl hlit
  | cons a as =>
    subst hl
    show findPattern2 lit1 (a :: as) ((a :: as) ++ rest) = some (rest.take 11)
    simp only [findPattern2, List.append_eq]
    have hca := captureAfter_append (a :: as) rest h11 hall
    rw [List.cons_append] at hca
    rw [List.cons_append] at h1
    rw [h1, hca]

/-- Members of a Boolean prefix are members of the whole list. -/
theorem isPrefixOf_subset (l s : List Char) (h : l.isPrefixOf s = true) : ∀ c ∈ l, c ∈ s :=
  fun c hc => (List.isPrefixOf_iff_prefix.mp h).subset hc

/-- A pattern whose literal contains a character absent from the string never
matches. -/
theorem findPattern_none_of_excluded (lit : List Char) (x : Char) (hx : x ∈ lit) :
    ∀ s : List Char, (∀ c ∈ s, c ≠ x) → findPattern lit s = none := by
  intro s
  induction s with
  | nil => intro _; rfl
  | cons c rest ih =>
    intro hs
    have hcap : captureAfter lit (c :: rest) = none := by
      unfold captureAfter
      cases hp : lit.isPrefixOf (c :: rest) with
      | false => simp
      | true =>
        have := isPrefixOf_subset lit (c :: rest) hp x hx
        exact absurd rfl (hs x this)
    rw [findPattern_step lit c rest hcap]
    exact ih (fun d hd => hs d (List.mem_cons_of_mem c hd))

/-- An alternation whose literals share a character absent from the string
never matches. -/
theorem findPattern2_none_of_excluded (lit1 lit2 : List Char) (x : Char)
    (hx1 : x ∈ lit1) (hx2 : x ∈ lit2) :
    ∀ s : List Char, (∀ c ∈ s, c ≠ x) → findPattern2 lit1 lit2 s = none := by
  intro s
  induction s with
  | nil => intro _; rfl
  | cons c rest ih =>
    intro hs
    have hcap : ∀ lit, x ∈ lit → captureAfter lit (c :: rest) = none := by
      intro lit hxl
      unfold captureAfter
      cases hp : lit.isPrefixOf (c :: rest) with
      | false => simp
      | true =>
        have := isPrefixOf_subset lit (c :: rest) hp x hxl
        exact absurd rfl (hs x this)
    rw [findPattern2_step lit1 lit2 c rest (hcap lit1 hx1) (hcap lit2 hx2)]
    exact ih (fun d hd => hs d (List.mem_cons_of_mem c hd))

/-- The identifier alphabet does not contain '.'. -/
theorem isIDChar_ne_dot (c : Char) (h : isIDChar c = true) : c ≠ '.' := by
  intro hc
  subst hc
  simp [isIDChar] at h

/-- A successful capture has exactly 11 characters and needs the literal plus
11 characters of input. -/
theorem captureAfter_some_length (lit s cap : List Char)
    (h : captureAfter lit s = some cap) : cap.length = 11 ∧ lit.length + 11 ≤ s.length := by
  unfold captureAfter at h
  split at h
  · rename_i hpre
    dsimp only at h
    split at h
    · rename_i hcond
      have hcap := (Option.some.injEq _ _).mp h
      subst hcap
      simp only [Bool.and_eq_true, decide_eq_true_eq] at hcond
      have hlen := hcond.1
      constructor
      · exact hlen
      · have hd : (List.take 11 (s.drop lit.length)).length = min 11 (s.drop lit.length).length := by
          rw [List.length_take]
        have hdl : (s.drop lit.length).length = s.length - lit.length := by
          rw [List.length_drop]
        have hple : lit.length ≤ s.length :=
          (List.isPrefixOf_iff_prefix.mp hpre).length_le
        omega
    · exact absurd h (by simp)
  · exact absurd h (by simp)

/-- A successful pattern match bounds the input length from below. -/
theorem findPattern_some_length (lit : List Char) :
    ∀ s cap, findPattern lit s = some cap → cap.length = 11 ∧ lit.length + 11 ≤ s.length := by
  intro s
  induction s with
  | nil => intro cap h; simp [findPattern] at h
  | cons c rest ih =>
    intro cap h
    simp only [findPattern] at h
    cases hca : captureAfter lit (c :: rest) with
    | some x =>
      rw [hca] at h
      have hx := (Option.some.injEq _ _).mp h
      rw [← hx]
      exact captureAfter_some_length lit (c :: rest) x hca
    | none =>
      rw [hca] at h
      have := ih cap h
      constructor
      · exact this.1
      · have h2 := this.2
        simp only [List.length_cons]
        omega

/-- A successful alternation match bounds the input length from below for one
of the literals. -/
theorem findPattern2_some_length (lit1 lit2 : List Char) :
    ∀ s cap, findPattern2 lit1 lit2 s = some cap →
      cap.length = 11 ∧ (lit1.length + 11 ≤ s.length ∨ lit2.length + 11 ≤ s.length) := by
  intro s
  induction s with
  | nil => intro cap h; simp [findPattern2] at h
  | cons c rest ih =>
    intro cap h
    simp only [findPattern2] at h
    cases hca : captureAfter lit1 (c :: rest) with
    | some x =>
      rw [hca] at h
      have hx := (Option.some.injEq _ _).mp h
      rw [← hx]
      have := captureAfter_some_length lit1 (c :: rest) x hca
      exact ⟨this.1, Or.inl this.2⟩
    | none =>
      rw [hca] at h
      cases hcb : captureAfter lit2 (c :: rest) with
      | some x =>
        rw [hcb] at h
        have hx := (Option.some.injEq _ _).mp h
        rw [← hx]
        have := captureAfter_some_length lit2 (c :: rest) x hcb
        exact ⟨this.1, Or.inr this.2⟩
      | none =>
        rw [hcb] at h
        have := ih cap h
        refine ⟨this.1, ?_⟩
        rcases this.2 with h2 | h2
        · left; simp only [List.length_cons]; omega
        · right; simp only [List.length_cons]; omega

/-- On a pure identifier-alphabet string, a dotted literal never matches. -/
theorem findPattern_none_of_idchars (lit : List Char) (hx : '.' ∈ lit) (s : List Char)
    (hall : s.all isIDChar = true) : findPattern lit s = none :=
  findPattern_none_of_excluded lit '.' hx s
    (fun c hc => isIDChar_ne_dot c (List.all_eq_true.mp hall c hc))

/-- On a pure identifier-alphabet string, a dotted alternation never
matches. -/
theorem findPattern2_none_of_idchars (lit1 lit2 : List Char)
    (hx1 : '.' ∈ lit1) (hx2 : '.' ∈ lit2) (s : List Char)
    (hall : s.all isIDChar = true) : findPattern2 lit1 lit2 s = none :=
  findPattern2_none_of_excluded lit1 lit2 '.' hx1 hx2 s
    (fun c hc => isIDChar_ne_dot c (List.all_eq_true.mp hall c hc))

/-- On a pure identifier-alphabet string all URL patterns fail, so the
resolver reduces to the bare 11-character check. -/
theorem extractVideoID_bare (s : String) (hall : s.data.all isIDChar = true) :
    extractVideoID s = if s.data.length = 11 then .ok s
      else .error ("could not extract video ID from: " ++ s) := by
  unfold extractVideoID
  rw [findPattern_none_of_idchars patWatch (by decide) _ hall,
      findPattern_none_of_idchars patShort (by decide) _ hall,
      findPattern2_none_of_idchars patEmbed patV (by decide) (by decide) _ hall,
      findPattern_none_of_idchars patShorts (by decide) _ hall,
      findPattern_none_of_idchars patLive (by decide) _ hall]
  by_cases hlen : s.data.length = 11
  · simp [hlen, hall]
  · simp [hlen, hall]

/-- A string resolves to itself exactly when it is 11 identifier-alphabet
characters: URL matches always return a proper 11-character substring of a
longer input. -/
theorem extractVideoID_ok_self_iff (s : String) :
    extractVideoID s = .ok s ↔ (s.data.length = 11 ∧ s.data.all isIDChar = true) := by
  constructor
  · intro h
    unfold extractVideoID at h
    split at h
    · rename_i cap heq
      have hmk : String.mk cap = s := (Except.ok.injEq _ _).mp h
      have hdata : s.data = cap := congrArg String.data hmk.symm
      have hl := findPattern_some_length patWatch s.data cap heq
      rw [hdata] at hl
      have : patWatch.length = 20 := by decide
      omega
    · split at h
      · rename_i cap heq
        have hmk : String.mk cap = s := (Except.ok.injEq _ _).mp h
        have hdata : s.data = cap := congrArg String.data hmk.symm
        have hl := findPattern_some_length patShort s.data cap heq
        rw [hdata] at hl
        have : patShort.length = 9 := by decide
        omega
      · split at h
        · rename_i cap heq
          have hmk : String.mk cap = s := (Except.ok.injEq _ _).mp h
          have hdata : s.data = cap := congrArg String.data hmk.symm
          have hl := findPattern2_some_length patEmbed patV s.data cap heq
          rw [hdata] at hl
          have h1 : patEmbed.length = 18 := by decide
          have h2 : patV.length = 14 := by decide
          rcases hl.2 with h3 | h3 <;> omega
        · split at h
          · rename_i cap heq
            have hmk : String.mk cap = s := (Except.ok.injEq _ _).mp h
            have hdata : s.data = cap := congrArg String.data hmk.symm
            have hl := findPattern_some_length patShorts s.data cap heq
            rw [hdata] at hl
            have : patShorts.length = 19 := by decide
            omega
          · split at h
            · rename_i cap heq
              have hmk : String.mk cap = s := (Except.ok.injEq _ _).mp h
              have hdata : s.data = cap := congrArg String.data hmk.symm
              have hl := findPattern_some_length patLive s.data cap heq
              rw [hdata] at hl
              have : patLive.length = 17 := by decide
              omega
            · split at h
              · rename_i hcond
                simp only [Bool.and_eq_true, decide_eq_true_eq] at hcond
                exact hcond
              · exact absurd h (by simp)
  · intro hc
    rw [extractVideoID_bare s hc.2]
    simp [hc.1]

/-- The standard watch URL: the first pattern captures the 11 characters after
the marker, for any suffix at all. -/
theorem extractWatch (id suf : String) (h11 : 11 ≤ id.data.length)
    (hall : id.data.all isIDChar = true) :
    extractVideoID ("https://www.youtube.com/watch?v=" ++ id ++ suf)
      = .ok (String.mk (id.data.take 11)) := by
  have ht : (id.data ++ suf.data).take 11 = id.data.take 11 :=
    List.take_append_of_le_length h11
  have hall11 : ((id.data ++ suf.data).take 11).all isIDChar = true := by
    rw [ht]
    apply List.all_eq_true.mpr
    intro x hx
    exact List.all_eq_true.mp hall x (List.mem_of_mem_take hx)
  have e1 : findPattern patWatch ("https://www.youtube.com/watch?v=" ++ id ++ suf).data
      = some (id.data.take 11) := by
    show findPattern patWatch
      ('h' :: 't' :: 't' :: 'p' :: 's' :: ':' :: '/' :: '/' :: 'w' :: 'w' :: 'w' :: '.' ::
        (patWatch ++ (id.data ++ suf.data))) = some (id.data.take 11)
    repeat rw [findPattern_step _ _ _ (by simp +decide [captureAfter, patWatch, List.isPrefixOf])]
    exact (findPattern_self patWatch (id.data ++ suf.data) (by decide)
      (by rw [List.length_append]; omega) hall11).trans (by rw [ht])
  unfold extractVideoID
  rw [e1]

/-- The youtu.be short URL: resolved by the second pattern provided the
trailing part brings no '.' (which could feed a higher-priority pattern). -/
theorem extractShort (id suf : String) (h11 : 11 ≤ id.data.length)
    (hall : id.data.all isIDChar = true) (hsuf : ∀ c ∈ suf.data, c ≠ '.') :
    extractVideoID ("https://youtu.be/" ++ id ++ suf)
      = .ok (String.mk (id.data.take 11)) := by
  have ht : (id.data ++ suf.data).take 11 = id.data.take 11 :=
    List.take_append_of_le_length h11
  have hall11 : ((id.data ++ suf.data).take 11).all isIDChar = true := by
    rw [ht]
    apply List.all_eq_true.mpr
    intro x hx
    exact List.all_eq_true.mp hall x (List.mem_of_mem_take hx)
  have hdots : ∀ c ∈ id.data ++ suf.data, c ≠ '.' := by
    intro c hc
    rcases List.mem_append.mp hc with h | h
    · exact isIDChar_ne_dot c (List.all_eq_true.mp hall c h)
    · exact hsuf c h
  have e1 : findPattern patWatch ("https://youtu.be/" ++ id ++ suf).data = none := by
    show findPattern patWatch
      ('h' :: 't' :: 't' :: 'p' :: 's' :: ':' :: '/' :: '/' :: 'y' :: 'o' :: 'u' :: 't' :: 'u' :: '.' :: 'b' :: 'e' :: '/' ::
        (id.data ++ suf.data)) = none
    repeat rw [findPattern_step _ _ _ (by simp +decide [captureAfter, patWatch, List.isPrefixOf])]
    exact findPattern_none_of_excluded patWatch '.' (by decide) _ hdots
  have e2 : findPattern patShort ("https://youtu.be/" ++ id ++ suf).data
      = some (id.data.take 11) := by
    show findPattern patShort
      ('h' :: 't' :: 't' :: 'p' :: 's' :: ':' :: '/' :: '/' ::(patShort ++ (id.data ++ suf.data)))
      = some (id.data.take 11)
    repeat rw [findPattern_step _ _ _ (by simp +decide [captureAfter, patShort, List.isPrefixOf])]
    exact (findPattern_self patShort (id.data ++ suf.data) (by decide)
      (by rw [List.length_append]; omega) hall11).trans (by rw [ht])
  unfold extractVideoID
  rw [e1, e2]

/-- The mobile watch URL: the first pattern captures after the marker. -/
theorem extractWatchMobile (id suf : String) (h11 : 11 ≤ id.data.length)
    (hall : id.data.all isIDChar = true) :
    extractVideoID ("https://m.youtube.com/watch?v=" ++ id ++ suf)
      = .ok (String.mk (id.data.take 11)) := by
  have ht : (id.data ++ suf.data).take 11 = id.data.take 11 :=
    List.take_append_of_le_length h11
  have hall11 : ((id.data ++ suf.data).take 11).all isIDChar = true := by
    rw [ht]
    apply List.all_eq_true.mpr
    intro x hx
    exact List.all_eq_true.mp hall x (List.mem_of_mem_take hx)
  have e1 : findPattern patWatch ("https://m.youtube.com/watch?v=" ++ id ++ suf).data
      = some (id.data.take 11) := by
    show findPattern patWatch
      ('h' :: 't' :: 't' :: 'p' :: 's' :: ':' :: '/' :: '/' :: 'm' :: '.' ::
        (patWatch ++ (id.data ++ suf.data))) = some (id.data.take 11)
    repeat rw [findPattern_step _ _ _ (by simp +decide [captureAfter, patWatch, List.isPrefixOf])]
    exact (findPattern_self patWatch (id.data ++ suf.data) (by decide)
      (by rw [List.length_append]; omega) hall11).trans (by rw [ht])
  unfold extractVideoID
  rw [e1]

/-- The embed URL: patterns one and two fail and the embed alternative of the
third pattern captures, for dot-free trailing parts. -/
theorem extractEmbed (id suf : String) (h11 : 11 ≤ id.data.length)
    (hall : id.data.all isIDChar = true) (hsuf : ∀ c ∈ suf.data, c ≠ '.') :
    extractVideoID ("https://www.youtube.com/embed/" ++ id ++ suf)
      = .ok (String.mk (id.data.take 11)) := by
  have ht : (id.data ++ suf.data).take 11 = id.data.take 11 :=
    List.take_append_of_le_length h11
  have hall11 : ((id.data ++ suf.data).take 11).all isIDChar = true := by
    rw [ht]
    apply List.all_eq_true.mpr
    intro x hx
    exact List.all_eq_true.mp hall x (List.mem_of_mem_take hx)
  have hdots : ∀ c ∈ id.data ++ suf.data, c ≠ '.' := by
    intro c hc
    rcases List.mem_append.mp hc with h | h
    · exact isIDChar_ne_dot c (List.all_eq_true.mp hall c h)
    · exact hsuf c h
  have e1 : findPattern patWatch ("https://www.youtube.com/embed/" ++ id ++ suf).data = none := by
    show findPattern patWatch
      ('h' :: 't' :: 't' :: 'p' :: 's' :: ':' :: '/' :: '/' :: 'w' :: 'w' :: 'w' :: '.' :: 'y' :: 'o' :: 'u' :: 't' :: 'u' :: 'b' ::
        'e' :: '.' :: 'c' :: 'o' :: 'm' :: '/' :: 'e' :: 'm' :: 'b' :: 'e' :: 'd' :: '/' ::(id.data ++ suf.data)) = none
    repeat rw [findPattern_step _ _ _ (by simp +decide [captureAfter, patWatch, List.isPrefixOf])]
    exact findPattern_none_of_excluded patWatch '.' (by decide) _ hdots
  have e2 : findPattern patShort ("https://www.youtube.com/embed/" ++ id ++ suf).data = none := by
    show findPattern patShort
      ('h' :: 't' :: 't' :: 'p' :: 's' :: ':' :: '/' :: '/' :: 'w' :: 'w' :: 'w' :: '.' :: 'y' :: 'o' :: 'u' :: 't' :: 'u' :: 'b' ::
        'e' :: '.' :: 'c' :: 'o' :: 'm' :: '/' :: 'e' :: 'm' :: 'b' :: 'e' :: 'd' :: '/' ::(id.data ++ suf.data)) = none
    repeat rw [findPattern_step _ _ _ (by simp +decide [captureAfter, patShort, List.isPrefixOf])]
    exact findPattern_none_of_excluded patShort '.' (by decide) _ hdots
  have e3 : findPattern2 patEmbed patV ("https://www.youtube.com/embed/" ++ id ++ suf).data
      = some (id.data.take 11) := by
    show findPattern2 patEmbed patV
      ('h' :: 't' :: 't' :: 'p' :: 's' :: ':' :: '/' :: '/' :: 'w' :: 'w' :: 'w' :: '.' ::
        (patEmbed ++ (id.data ++ suf.data))) = some (id.data.take 11)
    repeat rw [findPattern2_step _ _ _ _
      (by simp +decide [captureAfter, patEmbed, List.isPrefixOf])
      (by simp +decide [captureAfter, patV, List.isPrefixOf])]
    exact (findPattern2_self_left patEmbed patV (id.data ++ suf.data) (by decide)
      (by rw [List.length_append]; omega) hall11).trans (by rw [ht])
  unfold extractVideoID
  rw [e1, e2, e3]

/-- The legacy /v/ URL: the v alternative of the third pattern captures, for
dot-free trailing parts. -/
theorem extractV (id suf : String) (h11 : 11 ≤ id.data.length)
    (hall : id.data.all isIDChar = true) (hsuf : ∀ c ∈ suf.data, c ≠ '.') :
    extractVideoID ("https://www.youtube.com/v/" ++ id ++ suf)
      = .ok (String.mk (id.data.take 11)) := by
  have ht : (id.data ++ suf.data).take 11 = id.data.take 11 :=
    List.take_append_of_le_length h11
  have hall11 : ((id.data ++ suf.data).take 11).all isIDChar = true := by
    rw [ht]
    apply List.all_eq_true.mpr
    intro x hx
    exact List.all_eq_true.mp hall x (List.mem_of_mem_take hx)
  have hdots : ∀ c ∈ id.data ++ suf.data, c ≠ '.' := by
    intro c hc
    rcases List.mem_append.mp hc with h | h
    · exact isIDChar_ne_dot c (List.all_eq_true.mp hall c h)
    · exact hsuf c h
  have e1 : findPattern patWatch ("https://www.youtube.com/v/" ++ id ++ suf).data = none := by
    show findPattern patWatch
      ('h' :: 't' :: 't' :: 'p' :: 's' :: ':' :: '/' :: '/' :: 'w' :: 'w' :: 'w' :: '.' :: 'y' :: 'o' :: 'u' :: 't' :: 'u' :: 'b' ::
        'e' :: '.' :: 'c' :: 'o' :: 'm' :: '/' :: 'v' :: '/' ::(id.data ++ suf.data)) = none
    repeat rw [findPattern_step _ _ _ (by simp +decide [captureAfter, patWatch, List.isPrefixOf])]
    exact findPattern_none_of_excluded patWatch '.' (by decide) _ hdots
  have e2 : findPattern patShort ("https://www.youtube.com/v/" ++ id ++ suf).data = none := by
    show findPattern patShort
      ('h' :: 't' :: 't' :: 'p' :: 's' :: ':' :: '/' :: '/' :: 'w' :: 'w' :: 'w' :: '.' :: 'y' :: 'o' :: 'u' :: 't' :: 'u' :: 'b' ::
        'e' :: '.' :: 'c' :: 'o' :: 'm' :: '/' :: 'v' :: '/' ::(id.data ++ suf.data)) = none
    repeat rw [findPattern_step _ _ _ (by simp +decide [captureAfter, patShort, List.isPrefixOf])]
    exact findPattern_none_of_excluded patShort '.' (by decide) _ hdots
  have e3 : findPattern2 patEmbed patV ("https://www.youtube.com/v/" ++ id ++ suf).data
      = some (id.data.take 11) := by
    show findPattern2 patEmbed patV
      ('h' :: 't' :: 't' :: 'p' :: 's' :: ':' :: '/' :: '/' :: 'w' :: 'w' :: 'w' :: '.' ::
        (patV ++ (id.data ++ suf.data))) = some (id.data.take 11)
    repeat rw [findPattern2_step _ _ _ _
      (by simp +decide [captureAfter, patEmbed, List.isPrefixOf])
      (by simp +decide [captureAfter, patV, List.isPrefixOf])]
    exact (findPattern2_self_right patEmbed patV (id.data ++ suf.data) (by decide)
      (by simp +decide [captureAfter, patEmbed, patV, List.isPrefixOf])
      (by rw [List.length_append]; omega) hall11).trans (by rw [ht])
  unfold extractVideoID
  rw [e1, e2, e3]

/-- The shorts URL: the fourth pattern captures, for dot-free trailing
parts. -/
theorem extractShorts (id suf : String) (h11 : 11 ≤ id.data.length)
    (hall : id.data.all isIDChar = true) (hsuf : ∀ c ∈ suf.data, c ≠ '.') :
    extractVideoID ("https://www.youtube.com/shorts/" ++ id ++ suf)
      = .ok (String.mk (id.data.take 11)) := by
  have ht : (id.data ++ suf.data).take 11 = id.data.take 11 :=
    List.take_append_of_le_length h11
  have hall11 : ((id.data ++ suf.data).take 11).all isIDChar = true := by
    rw [ht]
    apply List.all_eq_true.mpr
    intro x hx
    exact List.all_eq_true.mp hall x (List.mem_of_mem_take hx)
  have hdots : ∀ c ∈ id.data ++ suf.data, c ≠ '.' := by
    intro c hc
    rcases List.mem_append.mp hc with h | h
    · exact isIDChar_ne_dot c (List.all_eq_true.mp hall c h)
    · exact hsuf c h
  have e1 : findPattern patWatch ("https://www.youtube.com/shorts/" ++ id ++ suf).data = none := by
    show findPattern patWatch
      ('h' :: 't' :: 't' :: 'p' :: 's' :: ':' :: '/' :: '/' :: 'w' :: 'w' :: 'w' :: '.' :: 'y' :: 'o' :: 'u' :: 't' :: 'u' :: 'b' ::
        'e' :: '.' :: 'c' :: 'o' :: 'm' :: '/' :: 's' :: 'h' :: 'o' :: 'r' :: 't' :: 's' :: '/' ::(id.data ++ suf.data)) = none
    repeat rw [findPattern_step _ _ _ (by simp +decide [captureAfter, patWatch, List.isPrefixOf])]
    exact findPattern_none_of_excluded patWatch '.' (by decide) _ hdots
  have e2 : findPattern patShort ("https://www.youtube.com/shorts/" ++ id ++ suf).data = none := by
    show findPattern patShort
      ('h' :: 't' :: 't' :: 'p' :: 's' :: ':' :: '/' :: '/' :: 'w' :: 'w' :: 'w' :: '.' :: 'y' :: 'o' :: 'u' :: 't' :: 'u' :: 'b' ::
        'e' :: '.' :: 'c' :: 'o' :: 'm' :: '/' :: 's' :: 'h' :: 'o' :: 'r' :: 't' :: 's' :: '/' ::(id.data ++ suf.data)) = none
    repeat rw [findPattern_step _ _ _ (by simp +decide [captureAfter, patShort, List.isPrefixOf])]
    exact findPattern_none_of_excluded patShort '.' (by decide) _ hdots
  have e3 : findPattern2 patEmbed patV ("https://www.youtube.com/shorts/" ++ id ++ suf).data
      = none := by
    show findPattern2 patEmbed patV
      ('h' :: 't' :: 't' :: 'p' :: 's' :: ':' :: '/' :: '/' :: 'w' :: 'w' :: 'w' :: '.' :: 'y' :: 'o' :: 'u' :: 't' :: 'u' :: 'b' ::
        'e' :: '.' :: 'c' :: 'o' :: 'm' :: '/' :: 's' :: 'h' :: 'o' :: 'r' :: 't' :: 's' :: '/' ::(id.data ++ suf.data)) = none
    repeat rw [findPattern2_step _ _ _ _
      (by simp +decide [captureAfter, patEmbed, List.isPrefixOf])
      (by simp +decide [captureAfter, patV, List.isPrefixOf])]
    exact findPattern2_none_of_excluded patEmbed patV '.' (by decide) (by decide) _ hdots
  have e4 : findPattern patShorts ("https://www.youtube.com/shorts/" ++ id ++ suf).data
      = some (id.data.take 11) := by
    show findPattern patShorts
      ('h' :: 't' :: 't' :: 'p' :: 's' :: ':' :: '/' :: '/' :: 'w' :: 'w' :: 'w' :: '.' ::
        (patShorts ++ (id.data ++ suf.data))) = some (id.data.take 11)
    repeat rw [findPattern_step _ _ _ (by simp +decide [captureAfter, patShorts, List.isPrefixOf])]
    exact (findPattern_self patShorts (id.data ++ suf.data) (by decide)
      (by rw [List.length_append]; omega) hall11).trans (by rw [ht])
  unfold extractVideoID
  rw [e1, e2, e3, e4]

/-- The live URL: the fifth pattern captures, for dot-free trailing parts. -/
theorem extractLive (id suf : String) (h11 : 11 ≤ id.data.length)
    (hall : id.data.all isIDChar = true) (hsuf : ∀ c ∈ suf.data, c ≠ '.') :
    extractVideoID ("https://www.youtube.com/live/" ++ id ++ suf)
      = .ok (String.mk (id.data.take 11)) := by
  have ht : (id.data ++ suf.data).take 11 = id.data.take 11 :=
    List.take_append_of_le_length h11
  have hall11 : ((id.data ++ suf.data).take 11).all isIDChar = true := by
    rw [ht]
    apply List.all_eq_true.mpr
    intro x hx
    exact List.all_eq_true.mp hall x (List.mem_of_mem_take hx)
  have hdots : ∀ c ∈ id.data ++ suf.data, c ≠ '.' := by
    intro c hc
    rcases List.mem_append.mp hc with h | h
    · exact isIDChar_ne_dot c (List.all_eq_true.mp hall c h)
    · exact hsuf c h
  have e1 : findPattern patWatch ("https://www.youtube.com/live/" ++ id ++ suf).data = none := by
    show findPattern patWatch
      ('h' :: 't' :: 't' :: 'p' :: 's' :: ':' :: '/' :: '/' :: 'w' :: 'w' :: 'w' :: '.' :: 'y' :: 'o' :: 'u' :: 't' :: 'u' :: 'b' ::
        'e' :: '.' :: 'c' :: 'o' :: 'm' :: '/' :: 'l' :: 'i' :: 'v' :: 'e' :: '/' ::(id.data ++ suf.data)) = none
    repeat rw [findPattern_step _ _ _ (by simp +decide [captureAfter, patWatch, List.isPrefixOf])]
    exact findPattern_none_of_excluded patWatch '.' (by decide) _ hdots
  have e2 : findPattern patShort ("https://www.youtube.com/live/" ++ id ++ suf).data = none := by
    show findPattern patShort
      ('h' :: 't' :: 't' :: 'p' :: 's' :: ':' :: '/' :: '/' :: 'w' :: 'w' :: 'w' :: '.' :: 'y' :: 'o' :: 'u' :: 't' :: 'u' :: 'b' ::
        'e' :: '.' :: 'c' :: 'o' :: 'm' :: '/' :: 'l' :: 'i' :: 'v' :: 'e' :: '/' ::(id.data ++ suf.data)) = none
    repeat rw [findPattern_step _ _ _ (by simp +decide [captureAfter, patShort, List.isPrefixOf])]
    exact findPattern_none_of_excluded patShort '.' (by decide) _ hdots
  have e3 : findPattern2 patEmbed patV ("https://www.youtube.com/live/" ++ id ++ suf).data
      = none := by
    show findPattern2 patEmbed patV
      ('h' :: 't' :: 't' :: 'p' :: 's' :: ':' :: '/' :: '/' :: 'w' :: 'w' :: 'w' :: '.' :: 'y' :: 'o' :: 'u' :: 't' :: 'u' :: 'b' ::
        'e' :: '.' :: 'c' :: 'o' :: 'm' :: '/' :: 'l' :: 'i' :: 'v' :: 'e' :: '/' ::(id.data ++ suf.data)) = none
    repeat rw [findPattern2_step _ _ _ _
      (by simp +decide [captureAfter, patEmbed, List.isPrefixOf])
      (by simp +decide [captureAfter, patV, List.isPrefixOf])]
    exact findPattern2_none_of_excluded patEmbed patV '.' (by decide) (by decide) _ hdots
  have e4 : findPattern patShorts ("https://www.youtube.com/live/" ++ id ++ suf).data = none := by
    show findPattern patShorts
      ('h' :: 't' :: 't' :: 'p' :: 's' :: ':' :: '/' :: '/' :: 'w' :: 'w' :: 'w' :: '.' :: 'y' :: 'o' :: 'u' :: 't' :: 'u' :: 'b' ::
        'e' :: '.' :: 'c' :: 'o' :: 'm' :: '/' :: 'l' :: 'i' :: 'v' :: 'e' :: '/' ::(id.data ++ suf.data)) = none
    repeat rw [findPattern_step _ _ _ (by simp +decide [captureAfter, patShorts, List.isPrefixOf])]
    exact findPattern_none_of_excluded patShorts '.' (by decide) _ hdots
  have e5 : findPattern patLive ("https://www.youtube.com/live/" ++ id ++ suf).data
      = some (id.data.take 11) := by
    show findPattern patLive
      ('h' :: 't' :: 't' :: 'p' :: 's' :: ':' :: '/' :: '/' :: 'w' :: 'w' :: 'w' :: '.' ::
        (patLive ++ (id.data ++ suf.data))) = some (id.data.take 11)
    repeat rw [findPattern_step _ _ _ (by simp +decide [captureAfter, patLive, List.isPrefixOf])]
    exact (findPattern_self patLive (id.data ++ suf.data) (by decide)
      (by rw [List.length_append]; omega) hall11).trans (by rw [ht])
  unfold extractVideoID
  rw [e1, e2, e3, e4, e5]

/-- C7 counterexample: a youtu.be URL embedding the valid identifier
AAAAAAAAAAA with a trailing query parameter resolves to BBBBBBBBBBB - the
watch pattern is tried first over the whole string and finds its marker inside
the query parameter - so Resolve does not return the embedded identifier
regardless of trailing query parameters. -/
theorem claim7_resolver_counterexample :
    extractVideoID "https://youtu.be/AAAAAAAAAAA?u=m.youtube.com/watch?v=BBBBBBBBBBB"
      = .ok "BBBBBBBBBBB" ∧
    ("BBBBBBBBBBB" : String) ≠ "AAAAAAAAAAA" ∧
    ("AAAAAAAAAAA" : String).data.length = 11 ∧
    ("AAAAAAAAAAA" : String).data.all isIDChar = true :=
  ⟨rfl, by decide, by decide, by decide⟩

/-- C7 (amended): every supported URL shape with a valid 11-character
identifier resolves to that identifier regardless of trailing query
parameters, provided (for the shapes tried after the watch pattern) the
trailing part contains no '.' and hence no higher-priority URL marker; a bare
string resolves to itself exactly when it is 11 valid-alphabet characters, and
6- and 16-character bare strings fail carrying the original input. -/
theorem claim7_resolver_amended :
    (∀ id suf : String, id.data.length = 11 → id.data.all isIDChar = true →
      extractVideoID ("https://www.youtube.com/watch?v=" ++ id ++ suf) = .ok id) ∧
    (∀ id suf : String, id.data.length = 11 → id.data.all isIDChar = true →
      extractVideoID ("https://m.youtube.com/watch?v=" ++ id ++ suf) = .ok id) ∧
    (∀ id suf : String, id.data.length = 11 → id.data.all isIDChar = true →
      (∀ c ∈ suf.data, c ≠ '.') →
      extractVideoID ("https://youtu.be/" ++ id ++ suf) = .ok id) ∧
    (∀ id suf : String, id.data.length = 11 → id.data.all isIDChar = true →
      (∀ c ∈ suf.data, c ≠ '.') →
      extractVideoID ("https://www.youtube.com/embed/" ++ id ++ suf) = .ok id) ∧
    (∀ id suf : String, id.data.length = 11 → id.data.all isIDChar = true →
      (∀ c ∈ suf.data, c ≠ '.') →
      extractVideoID ("https://www.youtube.com/v/" ++ id ++ suf) = .ok id) ∧
    (∀ id suf : String, id.data.length = 11 → id.data.all isIDChar = true →
      (∀ c ∈ suf.data, c ≠ '.') →
      extractVideoID ("https://www.youtube.com/shorts/" ++ id ++ suf) = .ok id) ∧
    (∀ id suf : String, id.data.length = 11 → id.data.all isIDChar = true →
      (∀ c ∈ suf.data, c ≠ '.') →
      extractVideoID ("https://www.youtube.com/live/" ++ id ++ suf) = .ok id) ∧
    (∀ s : String, extractVideoID s = .ok s ↔
      (s.data.length = 11 ∧ s.data.all isIDChar = true)) ∧
    (∀ s : String, s.data.length = 6 → s.data.all isIDChar = true →
      extractVideoID s = .error ("could not extract video ID from: " ++ s)) ∧
    (∀ s : String, s.data.length = 16 → s.data.all isIDChar = true →
      extractVideoID s = .error ("could not extract video ID from: " ++ s)) := by
  have hself : ∀ id : String, id.data.length = 11 → String.mk (id.data.take 11) = id := by
    intro id h1
    rw [List.take_of_length_le (by omega)]
  refine ⟨?_, ?_, ?_, ?_, ?_, ?_, ?_, extractVideoID_ok_self_iff, ?_, ?_⟩
  · intro id suf h1 h2
    have := extractWatch id suf (by omega) h2
    rwa [hself id h1] at this
  · intro id suf h1 h2
    have := extractWatchMobile id suf (by omega) h2
    rwa [hself id h1] at this
  · intro id suf h1 h2 h3
    have := extractShort id suf (by omega) h2 h3
    rwa [hself id h1] at this
  · intro id suf h1 h2 h3
    have := extractEmbed id suf (by omega) h2 h3
    rwa [hself id h1] at this
  · intro id suf h1 h2 h3
    have := extractV id suf (by omega) h2 h3
    rwa [hself id h1] at this
  · intro id suf h1 h2 h3
    have := extractShorts id suf (by omega) h2 h3
    rwa [hself id h1] at this
  · intro id suf h1 h2 h3
    have := extractLive id suf (by omega) h2 h3
    rwa [hself id h1] at this
  · intro s h1 h2
    rw [extractVideoID_bare s h2, if_neg (show ¬(s.data.length = 11) by omega)]
  · intro s h1 h2
    rw [extractVideoID_bare s h2, if_neg (show ¬(s.data.length = 11) by omega)]

/-- C7 witness: the amended conjuncts applied at concrete URLs and bare
strings. -/
theorem claim7_resolver_amended_witness :
    extractVideoID ("https://www.youtube.com/watch?v=" ++ "dQw4w9WgXcQ" ++ "&t=120")
      = .ok "dQw4w9WgXcQ" ∧
    extractVideoID ("https://youtu.be/" ++ "dQw4w9WgXcQ" ++ "?t=9") = .ok "dQw4w9WgXcQ" ∧
    extractVideoID "dQw4w9WgXcQ" = .ok "dQw4w9WgXcQ" ∧
    extractVideoID "abc123" = .error ("could not extract video ID from: " ++ "abc123") ∧
    extractVideoID "abcdefghijklmnop"
      = .error ("could not extract video ID from: " ++ "abcdefghijklmnop") :=
  ⟨claim7_resolver_amended.1 "dQw4w9WgXcQ" "&t=120" (by decide) (by decide),
   claim7_resolver_amended.2.2.1 "dQw4w9WgXcQ" "?t=9" (by decide) (by decide) (by decide),
   (claim7_resolver_amended.2.2.2.2.2.2.2.1 "dQw4w9WgXcQ").mpr ⟨by decide, by decide⟩,
   claim7_resolver_amended.2.2.2.2.2.2.2.2.1 "abc123" (by decide) (by decide),
   claim7_resolver_amended.2.2.2.2.2.2.2.2.2 "abcdefghijklmnop" (by decide) (by decide)⟩

/-- C10 counterexample: a youtu.be URL whose identifier segment is 16
valid-alphabet characters, followed by a query parameter embedding a watch
marker, resolves to the query's identifier BBBBBBBBBBB and not to the first 11
characters AAAAAAAAAAA of the segment - the watch pattern is tried first over
the whole string - so at full scope Resolve does not return the first 11
characters of every over-long identifier segment. -/
theorem claim10_overlong_counterexample :
    extractVideoID "https://youtu.be/AAAAAAAAAAAAAAAA?u=m.youtube.com/watch?v=BBBBBBBBBBB"
      = .ok "BBBBBBBBBBB" ∧
    ("AAAAAAAAAAAAAAAA" : String).data.length = 16 ∧
    ("AAAAAAAAAAAAAAAA" : String).data.all isIDChar = true ∧
    String.mk (("AAAAAAAAAAAAAAAA" : String).data.take 11) = "AAAAAAAAAAA" ∧
    ("BBBBBBBBBBB" : String) ≠ "AAAAAAAAAAA" :=
  ⟨rfl, by decide, by decide, by decide, by decide⟩

/-- C10 (amended): a URL whose identifier segment has 12 or more consecutive
valid-alphabet characters resolves to exactly the first 11 of them rather than
failing, because the URL patterns match positionally - unconditionally for the
watch shapes, and for the shapes matched after the watch pattern (youtu.be,
embed, /v/, shorts, live) provided the trailing part contains no '.' and hence
no embedded higher-priority URL marker; only a bare over-long identifier fails,
with the error carrying the input. -/
theorem claim10_overlong_token :
    (∀ tok suf : String, 12 ≤ tok.data.length → tok.data.all isIDChar = true →
      extractVideoID ("https://www.youtube.com/watch?v=" ++ tok ++ suf)
        = .ok (String.mk (tok.data.take 11))) ∧
    (∀ tok suf : String, 12 ≤ tok.data.length → tok.data.all isIDChar = true →
      extractVideoID ("https://m.youtube.com/watch?v=" ++ tok ++ suf)
        = .ok (String.mk (tok.data.take 11))) ∧
    (∀ tok suf : String, 12 ≤ tok.data.length → tok.data.all isIDChar = true →
      (∀ c ∈ suf.data, c ≠ '.') →
      extractVideoID ("https://youtu.be/" ++ tok ++ suf)
        = .ok (String.mk (tok.data.take 11))) ∧
    (∀ tok suf : String, 12 ≤ tok.data.length → tok.data.all isIDChar = true →
      (∀ c ∈ suf.data, c ≠ '.') →
      extractVideoID ("https://www.youtube.com/embed/" ++ tok ++ suf)
        = .ok (String.mk (tok.data.take 11))) ∧
    (∀ tok suf : String, 12 ≤ tok.data.length → tok.data.all isIDChar = true →
      (∀ c ∈ suf.data, c ≠ '.') →
      extractVideoID ("https://www.youtube.com/v/" ++ tok ++ suf)
        = .ok (String.mk (tok.data.take 11))) ∧
    (∀ tok suf : String, 12 ≤ tok.data.length → tok.data.all isIDChar = true →
      (∀ c ∈ suf.data, c ≠ '.') →
      extractVideoID ("https://www.youtube.com/shorts/" ++ tok ++ suf)
        = .ok (String.mk (tok.data.take 11))) ∧
    (∀ tok suf : String, 12 ≤ tok.data.length → tok.data.all isIDChar = true →
      (∀ c ∈ suf.data, c ≠ '.') →
      extractVideoID ("https://www.youtube.com/live/" ++ tok ++ suf)
        = .ok (String.mk (tok.data.take 11))) ∧
    (∀ s : String, 12 ≤ s.data.length → s.data.all isIDChar = true →
      extractVideoID s = .error ("could not extract video ID from: " ++ s)) := by
  refine ⟨?_, ?_, ?_, ?_, ?_, ?_, ?_, ?_⟩
  · intro tok suf h1 h2
    exact extractWatch tok suf (by omega) h2
  · intro tok suf h1 h2
    exact extractWatchMobile tok suf (by omega) h2
  · intro tok suf h1 h2 h3
    exact extractShort tok suf (by omega) h2 h3
  · intro tok suf h1 h2 h3
    exact extractEmbed tok suf (by omega) h2 h3
  · intro tok suf h1 h2 h3
    exact extractV tok suf (by omega) h2 h3
  · intro tok suf h1 h2 h3
    exact extractShorts tok suf (by omega) h2 h3
  · intro tok suf h1 h2 h3
    exact extractLive tok suf (by omega) h2 h3
  · intro s h1 h2
    rw [extractVideoID_bare s h2, if_neg (show ¬(s.data.length = 11) by omega)]

/-- C10 witness: a 16-character token after watch?v= and after youtu.be/ (with
a dot-free query) yields its first 11 characters; bare it fails. -/
theorem claim10_overlong_token_witness :
    extractVideoID ("https://www.youtube.com/watch?v=" ++ "abcdefghijklmnop" ++ "")
      = .ok (String.mk (("abcdefghijklmnop" : String).data.take 11)) ∧
    extractVideoID ("https://youtu.be/" ++ "abcdefghijklmnop" ++ "?t=1")
      = .ok (String.mk (("abcdefghijklmnop" : String).data.take 11)) ∧
    extractVideoID "abcdefghijklmnop"
      = .error ("could not extract video ID from: " ++ "abcdefghijklmnop") :=
  ⟨claim10_overlong_token.1 "abcdefghijklmnop" "" (by decide) (by decide),
   claim10_overlong_token.2.2.1 "abcdefghijklmnop" "?t=1" (by decide) (by decide) (by decide),
   claim10_overlong_token.2.2.2.2.2.2.2 "abcdefghijklmnop" (by decide) (by decide)⟩

end YTSummary
